import Mathlib

/-!
Shallow embedding of the proof-of-existence pallet in
`src/pallets/poe/src/lib.rs`.

The pallet stores a map `Proofs : BoundedVec<u8, MaxClaimLength> →
(AccountId, BlockNumber)` and exposes three dispatchable calls:
`create_claim`, `revoke_claim` and `transfer_claim`.  The caller identity
(`ensure_signed`) and the block number are supplied by the host
environment; here they are explicit parameters.  A `BoundedVec` whose
`try_from` succeeds carries exactly the raw bytes of the input, so the
storage key is modelled as the raw byte list together with the length
check `claim.length ≤ maxClaimLength` performed by `try_from`.
-/

namespace Poe

/-- `T::AccountId`: an opaque, equality-comparable account identity. -/
abbrev AccountId := Nat

/-- `T::BlockNumber`: the logical timestamp read from `frame_system`. -/
abbrev BlockNumber := Nat

/-- A `Vec<u8>` of claim content bytes. -/
abbrev Content := List Nat

/-- The `Proofs` storage map: fingerprint bytes to `(owner, block_number)`.
Keys are compared by exact byte equality, as in `StorageMap`. -/
def Proofs := Content → Option (AccountId × BlockNumber)

/-- The empty storage map. -/
def Proofs.empty : Proofs := fun _ => none

/-- `Proofs::<T>::insert(k, v)`: map `k` to `v`, overwriting any previous
entry under `k`. -/
def Proofs.insert (m : Proofs) (k : Content) (v : AccountId × BlockNumber) : Proofs :=
  fun q => if q = k then some v else m q

/-- `Proofs::<T>::remove(k)`: delete the entry under `k`, if any. -/
def Proofs.remove (m : Proofs) (k : Content) : Proofs :=
  fun q => if q = k then none else m q

/-- The pallet's `Error<T>` enum. -/
inductive Error where
  | ProofAlreadyExist
  | ClaimTooLong
  | ClaimNotExist
  | NotClaimOwner
  deriving DecidableEq, Repr

/-- The pallet's `Event<T>` enum.  Each event carries the raw content
bytes that were passed in, not the bounded key. -/
inductive Event where
  | ClaimCreated (who : AccountId) (claim : Content)
  | ClaimRevoked (who : AccountId) (claim : Content)
  | ClaimTransfered (prev : AccountId) (who : AccountId) (claim : Content)
  deriving DecidableEq, Repr

/-- Outcome of one dispatchable call: the storage map after the call, the
`DispatchResult`, and the list of events deposited during the call. -/
structure CallOutput where
  proofs : Proofs
  result : Except Error Unit
  events : List Event

/-- `create_claim(origin, claim)`.  `try_from` into the bounded vector
fails with `ClaimTooLong` when the content is longer than
`MaxClaimLength`; then `contains_key` guards against a live record; on
success the record `(sender, block_number)` is inserted and
`ClaimCreated` is deposited. -/
def create_claim (maxClaimLength : Nat) (now : BlockNumber) (proofs : Proofs)
    (sender : AccountId) (claim : Content) : CallOutput :=
  if claim.length ≤ maxClaimLength then
    match proofs claim with
    | some _ => ⟨proofs, .error .ProofAlreadyExist, []⟩
    | none =>
      ⟨proofs.insert claim (sender, now), .ok (), [.ClaimCreated sender claim]⟩
  else
    ⟨proofs, .error .ClaimTooLong, []⟩

/-- `revoke_claim(origin, claim)`.  Same `try_from` check; then the record
is fetched (`ClaimNotExist` when absent), the owner compared with the
sender (`NotClaimOwner` on mismatch), the entry removed and
`ClaimRevoked` deposited. -/
def revoke_claim (maxClaimLength : Nat) (_now : BlockNumber) (proofs : Proofs)
    (sender : AccountId) (claim : Content) : CallOutput :=
  if claim.length ≤ maxClaimLength then
    match proofs claim with
    | none => ⟨proofs, .error .ClaimNotExist, []⟩
    | some (owner, _) =>
      if owner = sender then
        ⟨proofs.remove claim, .ok (), [.ClaimRevoked sender claim]⟩
      else
        ⟨proofs, .error .NotClaimOwner, []⟩
  else
    ⟨proofs, .error .ClaimTooLong, []⟩

/-- `transfer_claim(origin, claim, dest)`.  Same `try_from`, existence and
ownership checks as `revoke_claim`; on success the entry is overwritten
with `(dest, block_number)` and `ClaimTransfered(owner, sender, claim)` is
deposited. -/
def transfer_claim (maxClaimLength : Nat) (now : BlockNumber) (proofs : Proofs)
    (sender : AccountId) (claim : Content) (dest : AccountId) : CallOutput :=
  if claim.length ≤ maxClaimLength then
    match proofs claim with
    | none => ⟨proofs, .error .ClaimNotExist, []⟩
    | some (owner, _) =>
      if owner = sender then
        ⟨proofs.insert claim (dest, now), .ok (), [.ClaimTransfered owner sender claim]⟩
      else
        ⟨proofs, .error .NotClaimOwner, []⟩
  else
    ⟨proofs, .error .ClaimTooLong, []⟩

/-- `true` iff a `DispatchResult` is `Ok`. -/
def isOk : Except Error Unit → Bool
  | .ok _ => true
  | .error _ => false

/-- One dispatchable call of the pallet, with its already-authenticated
sender. -/
inductive Call where
  | create (sender : AccountId) (claim : Content)
  | revoke (sender : AccountId) (claim : Content)
  | transfer (sender : AccountId) (claim : Content) (dest : AccountId)
  deriving DecidableEq, Repr

/-- The content bytes (hence the fingerprint) a call is keyed by. -/
def Call.claim : Call → Content
  | .create _ c => c
  | .revoke _ c => c
  | .transfer _ c _ => c

/-- Dispatch one call against the storage map. -/
def dispatch (maxClaimLength : Nat) (now : BlockNumber) (proofs : Proofs) :
    Call → CallOutput
  | .create s c => create_claim maxClaimLength now proofs s c
  | .revoke s c => revoke_claim maxClaimLength now proofs s c
  | .transfer s c d => transfer_claim maxClaimLength now proofs s c d

/-- Run a sequence of calls, each tagged with the block number at which it
executes, threading the storage map through. -/
def run (maxClaimLength : Nat) : List (BlockNumber × Call) → Proofs → Proofs
  | [], m => m
  | (now, c) :: rest, m => run maxClaimLength rest (dispatch maxClaimLength now m c).proofs

/-- `true` iff the call `c`, executed at block `now` against store `m`,
is a `revoke_claim` of fingerprint `f` that succeeds. -/
def stepRevokes (maxClaimLength : Nat) (now : BlockNumber) (m : Proofs)
    (f : Content) : Call → Bool
  | .revoke s cl =>
    decide (cl = f) && isOk (revoke_claim maxClaimLength now m s cl).result
  | _ => false

/-- `true` iff some step of the sequence is a `revoke_claim` call on
fingerprint `f` that succeeds at its point of execution. -/
def revokedDuring (maxClaimLength : Nat) (f : Content) :
    List (BlockNumber × Call) → Proofs → Bool
  | [], _ => false
  | (now, c) :: rest, m =>
    stepRevokes maxClaimLength now m f c
    || revokedDuring maxClaimLength f rest (dispatch maxClaimLength now m c).proofs

/-! ## Claim theorems -/

/-- Claim C1: any call to `create_claim`, `revoke_claim` or
`transfer_claim` that fails with one of the four errors leaves the
registry's full state (including entries for unrelated fingerprints)
bit-for-bit identical to before the call and emits no event. -/
theorem claim1_failure_is_noop (L : Nat) (now : BlockNumber) (m : Proofs)
    (c : Call) (e : Error)
    (h : (dispatch L now m c).result = .error e) :
    (dispatch L now m c).proofs = m ∧ (dispatch L now m c).events = [] := by
  cases c with
  | create s cl =>
    simp only [dispatch, create_claim] at h ⊢
    by_cases hl : cl.length ≤ L
    · cases hm : m cl with
      | some v => simp [hl, hm]
      | none => simp [hl, hm] at h
    · simp [hl]
  | revoke s cl =>
    simp only [dispatch, revoke_claim] at h ⊢
    by_cases hl : cl.length ≤ L
    · cases hm : m cl with
      | none => simp [hl, hm]
      | some v =>
        obtain ⟨o, t⟩ := v
        by_cases ho : o = s
        · simp [hl, hm, ho] at h
        · simp [hl, hm, ho]
    · simp [hl]
  | transfer s cl d =>
    simp only [dispatch, transfer_claim] at h ⊢
    by_cases hl : cl.length ≤ L
    · cases hm : m cl with
      | none => simp [hl, hm]
      | some v =>
        obtain ⟨o, t⟩ := v
        by_cases ho : o = s
        · simp [hl, hm, ho] at h
        · simp [hl, hm, ho]
    · simp [hl]

/-- Witness for C1 at a concrete failing input. -/
theorem claim1_failure_is_noop_witness :
    (dispatch 4 1 Proofs.empty (.revoke 1 [1])).proofs = Proofs.empty ∧
      (dispatch 4 1 Proofs.empty (.revoke 1 [1])).events = [] :=
  claim1_failure_is_noop 4 1 Proofs.empty (.revoke 1 [1]) .ClaimNotExist rfl

/-- Claim C3: when the content is within `MaxClaimLength` and its
fingerprint has no live record, `create_claim` succeeds, inserts
`fingerprint ↦ (caller, current block number)` and emits
`ClaimCreated(caller, content)` carrying the raw content bytes. -/
theorem claim3_create_success (L : Nat) (now : BlockNumber) (m : Proofs)
    (s : AccountId) (c : Content)
    (hlen : c.length ≤ L) (habs : m c = none) :
    (create_claim L now m s c).result = .ok () ∧
      (create_claim L now m s c).proofs c = some (s, now) ∧
      (∀ g, g ≠ c → (create_claim L now m s c).proofs g = m g) ∧
      (create_claim L now m s c).events = [.ClaimCreated s c] := by
  refine ⟨?_, ?_, ?_, ?_⟩ <;>
    simp [create_claim, hlen, habs, Proofs.insert]
  intro g hg
  simp [hg]

/-- Witness for C3 at a concrete input. -/
theorem claim3_create_success_witness :
    (create_claim 4 7 Proofs.empty 1 [1, 2, 3]).result = .ok () ∧
      (create_claim 4 7 Proofs.empty 1 [1, 2, 3]).proofs [1, 2, 3] = some (1, 7) ∧
      (∀ g, g ≠ [1, 2, 3] →
        (create_claim 4 7 Proofs.empty 1 [1, 2, 3]).proofs g = Proofs.empty g) ∧
      (create_claim 4 7 Proofs.empty 1 [1, 2, 3]).events = [.ClaimCreated 1 [1, 2, 3]] :=
  claim3_create_success 4 7 Proofs.empty 1 [1, 2, 3] (by decide) rfl

/-- Claim C4: for all three operations, content of length exactly
`MaxClaimLength` passes the encoding step (the call never fails with
`ClaimTooLong`), while content longer than `MaxClaimLength` fails with
`ClaimTooLong` leaving every store untouched and emitting nothing — the
outcome is the same constant for every store state, so no lookup, insert
or remove takes part in it. -/
theorem claim4_length_boundary (L : Nat) (now : BlockNumber) (m : Proofs)
    (s d : AccountId) (cEq cLong : Content)
    (hEq : cEq.length = L) (hLong : L < cLong.length) :
    ((create_claim L now m s cEq).result ≠ .error .ClaimTooLong ∧
      (revoke_claim L now m s cEq).result ≠ .error .ClaimTooLong ∧
      (transfer_claim L now m s cEq d).result ≠ .error .ClaimTooLong) ∧
    ((create_claim L now m s cLong).result = .error .ClaimTooLong ∧
      (create_claim L now m s cLong).proofs = m ∧
      (create_claim L now m s cLong).events = []) ∧
    ((revoke_claim L now m s cLong).result = .error .ClaimTooLong ∧
      (revoke_claim L now m s cLong).proofs = m ∧
      (revoke_claim L now m s cLong).events = []) ∧
    ((transfer_claim L now m s cLong d).result = .error .ClaimTooLong ∧
      (transfer_claim L now m s cLong d).proofs = m ∧
      (transfer_claim L now m s cLong d).events = []) := by
  have hle : cEq.length ≤ L := Nat.le_of_eq hEq
  have hgt : ¬ cLong.length ≤ L := Nat.not_le.mpr hLong
  refine ⟨⟨?_, ?_, ?_⟩, ?_, ?_, ?_⟩ <;>
    simp only [create_claim, revoke_claim, transfer_claim, if_pos hle, if_neg hgt]
  · cases m cEq <;> simp
  · cases hm : m cEq with
    | none => simp
    | some v =>
      obtain ⟨o, t⟩ := v
      by_cases ho : o = s <;> simp [ho]
  · cases hm : m cEq with
    | none => simp
    | some v =>
      obtain ⟨o, t⟩ := v
      by_cases ho : o = s <;> simp [ho]
  · exact ⟨trivial, trivial, trivial⟩
  · exact ⟨trivial, trivial, trivial⟩
  · exact ⟨trivial, trivial, trivial⟩

/-- Witness for C4 at concrete inputs (max length 4). -/
theorem claim4_length_boundary_witness :
    ((create_claim 4 1 Proofs.empty 1 [1, 2, 3, 4]).result ≠ .error .ClaimTooLong ∧
      (revoke_claim 4 1 Proofs.empty 1 [1, 2, 3, 4]).result ≠ .error .ClaimTooLong ∧
      (transfer_claim 4 1 Proofs.empty 1 [1, 2, 3, 4] 2).result ≠ .error .ClaimTooLong) ∧
    ((create_claim 4 1 Proofs.empty 1 [1, 2, 3, 4, 5]).result = .error .ClaimTooLong ∧
      (create_claim 4 1 Proofs.empty 1 [1, 2, 3, 4, 5]).proofs = Proofs.empty ∧
      (create_claim 4 1 Proofs.empty 1 [1, 2, 3, 4, 5]).events = []) ∧
    ((revoke_claim 4 1 Proofs.empty 1 [1, 2, 3, 4, 5]).result = .error .ClaimTooLong ∧
      (revoke_claim 4 1 Proofs.empty 1 [1, 2, 3, 4, 5]).proofs = Proofs.empty ∧
      (revoke_claim 4 1 Proofs.empty 1 [1, 2, 3, 4, 5]).events = []) ∧
    ((transfer_claim 4 1 Proofs.empty 1 [1, 2, 3, 4, 5] 2).result = .error .ClaimTooLong ∧
      (transfer_claim 4 1 Proofs.empty 1 [1, 2, 3, 4, 5] 2).proofs = Proofs.empty ∧
      (transfer_claim 4 1 Proofs.empty 1 [1, 2, 3, 4, 5] 2).events = []) :=
  claim4_length_boundary 4 1 Proofs.empty 1 2 [1, 2, 3, 4] [1, 2, 3, 4, 5]
    (by decide) (by decide)

/-- Claim C5: in both `revoke_claim` and `transfer_claim` on a
valid-length content, an absent fingerprint fails with `ClaimNotExist`
for every caller (so the existence check precedes the ownership check),
and a record whose owner differs from the caller fails with
`NotClaimOwner`, leaving the store unchanged. -/
theorem claim5_existence_then_ownership (L : Nat) (now : BlockNumber)
    (m : Proofs) (s d : AccountId) (c : Content) (hlen : c.length ≤ L) :
    (m c = none →
      (revoke_claim L now m s c).result = .error .ClaimNotExist ∧
      (transfer_claim L now m s c d).result = .error .ClaimNotExist) ∧
    (∀ o t, m c = some (o, t) → o ≠ s →
      (revoke_claim L now m s c).result = .error .NotClaimOwner ∧
      (transfer_claim L now m s c d).result = .error .NotClaimOwner ∧
      (revoke_claim L now m s c).proofs = m ∧
      (transfer_claim L now m s c d).proofs = m) := by
  constructor
  · intro habs
    constructor <;> simp [revoke_claim, transfer_claim, hlen, habs]
  · intro o t hrec ho
    refine ⟨?_, ?_, ?_, ?_⟩ <;>
      simp [revoke_claim, transfer_claim, hlen, hrec, ho]

/-- Witness for C5 at concrete inputs. -/
theorem claim5_existence_then_ownership_witness :
    ((Proofs.empty.insert [9] (5, 0)) [1] = none →
      (revoke_claim 4 1 (Proofs.empty.insert [9] (5, 0)) 1 [1]).result
        = .error .ClaimNotExist ∧
      (transfer_claim 4 1 (Proofs.empty.insert [9] (5, 0)) 1 [1] 2).result
        = .error .ClaimNotExist) ∧
    (∀ o t, (Proofs.empty.insert [9] (5, 0)) [1] = some (o, t) → o ≠ 1 →
      (revoke_claim 4 1 (Proofs.empty.insert [9] (5, 0)) 1 [1]).result
        = .error .NotClaimOwner ∧
      (transfer_claim 4 1 (Proofs.empty.insert [9] (5, 0)) 1 [1] 2).result
        = .error .NotClaimOwner ∧
      (revoke_claim 4 1 (Proofs.empty.insert [9] (5, 0)) 1 [1]).proofs
        = Proofs.empty.insert [9] (5, 0) ∧
      (transfer_claim 4 1 (Proofs.empty.insert [9] (5, 0)) 1 [1] 2).proofs
        = Proofs.empty.insert [9] (5, 0)) :=
  claim5_existence_then_ownership 4 1 (Proofs.empty.insert [9] (5, 0)) 1 2 [1]
    (by decide)

/-- Claim C6: when the caller owns the live record of the content's
fingerprint, `transfer_claim` succeeds, updates the record in place
(owner becomes the destination, timestamp becomes the current block, the
key is unchanged and entries under other keys are untouched) and emits
`ClaimTransfered(previous_owner, caller, content)` with
`previous_owner = caller`. -/
theorem claim6_transfer_success (L : Nat) (now : BlockNumber) (m : Proofs)
    (s d : AccountId) (c : Content) (t : BlockNumber)
    (hlen : c.length ≤ L) (hrec : m c = some (s, t)) :
    (transfer_claim L now m s c d).result = .ok () ∧
      (transfer_claim L now m s c d).proofs c = some (d, now) ∧
      (∀ g, g ≠ c → (transfer_claim L now m s c d).proofs g = m g) ∧
      (transfer_claim L now m s c d).events = [.ClaimTransfered s s c] := by
  refine ⟨?_, ?_, ?_, ?_⟩ <;>
    simp [transfer_claim, hlen, hrec, Proofs.insert]
  intro g hg
  simp [hg]

/-- Witness for C6 at a concrete input. -/
theorem claim6_transfer_success_witness :
    (transfer_claim 4 9 (Proofs.empty.insert [1, 2] (1, 3)) 1 [1, 2] 2).result = .ok () ∧
      (transfer_claim 4 9 (Proofs.empty.insert [1, 2] (1, 3)) 1 [1, 2] 2).proofs [1, 2]
        = some (2, 9) ∧
      (∀ g, g ≠ [1, 2] →
        (transfer_claim 4 9 (Proofs.empty.insert [1, 2] (1, 3)) 1 [1, 2] 2).proofs g
          = (Proofs.empty.insert [1, 2] (1, 3)) g) ∧
      (transfer_claim 4 9 (Proofs.empty.insert [1, 2] (1, 3)) 1 [1, 2] 2).events
        = [.ClaimTransfered 1 1 [1, 2]] :=
  claim6_transfer_success 4 9 (Proofs.empty.insert [1, 2] (1, 3)) 1 2 [1, 2] 3
    (by decide) rfl

/-- Claim C7: when the caller owns the live record of the content's
fingerprint, `revoke_claim` succeeds, removes the record entirely (the
fingerprint becomes absent, other entries untouched) and emits
`ClaimRevoked(caller, content)`. -/
theorem claim7_revoke_success (L : Nat) (now : BlockNumber) (m : Proofs)
    (s : AccountId) (c : Content) (t : BlockNumber)
    (hlen : c.length ≤ L) (hrec : m c = some (s, t)) :
    (revoke_claim L now m s c).result = .ok () ∧
      (revoke_claim L now m s c).proofs c = none ∧
      (∀ g, g ≠ c → (revoke_claim L now m s c).proofs g = m g) ∧
      (revoke_claim L now m s c).events = [.ClaimRevoked s c] := by
  refine ⟨?_, ?_, ?_, ?_⟩ <;>
    simp [revoke_claim, hlen, hrec, Proofs.remove]
  intro g hg
  simp [hg]

/-- Witness for C7 at a concrete input. -/
theorem claim7_revoke_success_witness :
    (revoke_claim 4 9 (Proofs.empty.insert [1, 2] (1, 3)) 1 [1, 2]).result = .ok () ∧
      (revoke_claim 4 9 (Proofs.empty.insert [1, 2] (1, 3)) 1 [1, 2]).proofs [1, 2]
        = none ∧
      (∀ g, g ≠ [1, 2] →
        (revoke_claim 4 9 (Proofs.empty.insert [1, 2] (1, 3)) 1 [1, 2]).proofs g
          = (Proofs.empty.insert [1, 2] (1, 3)) g) ∧
      (revoke_claim 4 9 (Proofs.empty.insert [1, 2] (1, 3)) 1 [1, 2]).events
        = [.ClaimRevoked 1 [1, 2]] :=
  claim7_revoke_success 4 9 (Proofs.empty.insert [1, 2] (1, 3)) 1 [1, 2] 3
    (by decide) rfl

/-- Claim C8: starting from a registry where a valid-length content's
fingerprint is absent, `create_claim(A, c)` then `revoke_claim(A, c)`
then `create_claim(B, c)` each succeed, and afterwards the record for
the fingerprint is owned by `B`. -/
theorem claim8_revoke_then_recreate (L : Nat) (n1 n2 n3 : BlockNumber)
    (m : Proofs) (A B : AccountId) (c : Content)
    (hlen : c.length ≤ L) (habs : m c = none) :
    (create_claim L n1 m A c).result = .ok () ∧
      (revoke_claim L n2 (create_claim L n1 m A c).proofs A c).result = .ok () ∧
      (create_claim L n3
          (revoke_claim L n2 (create_claim L n1 m A c).proofs A c).proofs
          B c).result = .ok () ∧
      (create_claim L n3
          (revoke_claim L n2 (create_claim L n1 m A c).proofs A c).proofs
          B c).proofs c = some (B, n3) := by
  refine ⟨?_, ?_, ?_, ?_⟩ <;>
    simp [create_claim, revoke_claim, hlen, habs, Proofs.insert, Proofs.remove]

/-- Witness for C8 at a concrete input. -/
theorem claim8_revoke_then_recreate_witness :
    (create_claim 4 1 Proofs.empty 1 [7]).result = .ok () ∧
      (revoke_claim 4 2 (create_claim 4 1 Proofs.empty 1 [7]).proofs 1 [7]).result
        = .ok () ∧
      (create_claim 4 3
          (revoke_claim 4 2 (create_claim 4 1 Proofs.empty 1 [7]).proofs 1 [7]).proofs
          2 [7]).result = .ok () ∧
      (create_claim 4 3
          (revoke_claim 4 2 (create_claim 4 1 Proofs.empty 1 [7]).proofs 1 [7]).proofs
          2 [7]).proofs [7] = some (2, 3) :=
  claim8_revoke_then_recreate 4 1 2 3 Proofs.empty 1 2 [7] (by decide) rfl

/-- Claim C10: a self-transfer is not rejected: when the caller owns the
live record, `transfer_claim(caller, content, caller)` succeeds, leaves
the owner equal to the caller, refreshes the timestamp to the current
block and emits `ClaimTransfered(caller, caller, content)`. -/
theorem claim10_self_transfer (L : Nat) (now : BlockNumber) (m : Proofs)
    (s : AccountId) (c : Content) (t : BlockNumber)
    (hlen : c.length ≤ L) (hrec : m c = some (s, t)) :
    (transfer_claim L now m s c s).result = .ok () ∧
      (transfer_claim L now m s c s).proofs c = some (s, now) ∧
      (∀ g, g ≠ c → (transfer_claim L now m s c s).proofs g = m g) ∧
      (transfer_claim L now m s c s).events = [.ClaimTransfered s s c] := by
  refine ⟨?_, ?_, ?_, ?_⟩ <;>
    simp [transfer_claim, hlen, hrec, Proofs.insert]
  intro g hg
  simp [hg]

/-- Witness for C10 at a concrete input. -/
theorem claim10_self_transfer_witness :
    (transfer_claim 4 9 (Proofs.empty.insert [1] (1, 3)) 1 [1] 1).result = .ok () ∧
      (transfer_claim 4 9 (Proofs.empty.insert [1] (1, 3)) 1 [1] 1).proofs [1]
        = some (1, 9) ∧
      (∀ g, g ≠ [1] →
        (transfer_claim 4 9 (Proofs.empty.insert [1] (1, 3)) 1 [1] 1).proofs g
          = (Proofs.empty.insert [1] (1, 3)) g) ∧
      (transfer_claim 4 9 (Proofs.empty.insert [1] (1, 3)) 1 [1] 1).events
        = [.ClaimTransfered 1 1 [1]] :=
  claim10_self_transfer 4 9 (Proofs.empty.insert [1] (1, 3)) 1 [1] 3
    (by decide) rfl

/-- Claim C9: every operation reads and writes at most the registry
entry under its own fingerprint.  Entries under every other fingerprint
are unchanged by the call (on success and on failure), and the result,
the deposited events and the written entry are determined by the store's
value at that fingerprint alone: two stores agreeing there produce the
same outcome. -/
theorem claim9_single_entry_frame (L : Nat) (now : BlockNumber)
    (m m' : Proofs) (c : Call) (hagree : m c.claim = m' c.claim) :
    (∀ g, g ≠ c.claim → (dispatch L now m c).proofs g = m g) ∧
      (dispatch L now m c).result = (dispatch L now m' c).result ∧
      (dispatch L now m c).events = (dispatch L now m' c).events ∧
      (dispatch L now m c).proofs c.claim = (dispatch L now m' c).proofs c.claim := by
  cases c with
  | create s cl =>
    simp only [Call.claim] at hagree ⊢
    simp only [dispatch, create_claim]
    by_cases hl : cl.length ≤ L
    · cases hm : m cl with
      | some v =>
        have hm' : m' cl = some v := by rw [← hagree]; exact hm
        simp [hl, hm, hm']
      | none =>
        have hm' : m' cl = none := by rw [← hagree]; exact hm
        simp [hl, hm, hm', Proofs.insert]
        exact fun g hg hg2 => absurd hg2 hg
    · simp [hl, hagree]
  | revoke s cl =>
    simp only [Call.claim] at hagree ⊢
    simp only [dispatch, revoke_claim]
    by_cases hl : cl.length ≤ L
    · cases hm : m cl with
      | none =>
        have hm' : m' cl = none := by rw [← hagree]; exact hm
        simp [hl, hm, hm']
      | some v =>
        obtain ⟨o, t⟩ := v
        have hm' : m' cl = some (o, t) := by rw [← hagree]; exact hm
        by_cases ho : o = s
        · simp [hl, hm, hm', ho, Proofs.remove]
          exact fun g hg hg2 => absurd hg2 hg
        · simp [hl, hm, hm', ho]
    · simp [hl, hagree]
  | transfer s cl d =>
    simp only [Call.claim] at hagree ⊢
    simp only [dispatch, transfer_claim]
    by_cases hl : cl.length ≤ L
    · cases hm : m cl with
      | none =>
        have hm' : m' cl = none := by rw [← hagree]; exact hm
        simp [hl, hm, hm']
      | some v =>
        obtain ⟨o, t⟩ := v
        have hm' : m' cl = some (o, t) := by rw [← hagree]; exact hm
        by_cases ho : o = s
        · simp [hl, hm, hm', ho, Proofs.insert]
          exact fun g hg hg2 => absurd hg2 hg
        · simp [hl, hm, hm', ho]
    · simp [hl, hagree]

/-- Witness for C9 at a concrete input: two different stores agreeing at
the call's fingerprint. -/
theorem claim9_single_entry_frame_witness :
    (∀ g, g ≠ (Call.revoke 1 [1, 2]).claim →
      (dispatch 4 5 (Proofs.empty.insert [1, 2] (1, 0)) (.revoke 1 [1, 2])).proofs g
        = (Proofs.empty.insert [1, 2] (1, 0)) g) ∧
      (dispatch 4 5 (Proofs.empty.insert [1, 2] (1, 0)) (.revoke 1 [1, 2])).result
        = (dispatch 4 5 ((Proofs.empty.insert [9] (3, 2)).insert [1, 2] (1, 0))
            (.revoke 1 [1, 2])).result ∧
      (dispatch 4 5 (Proofs.empty.insert [1, 2] (1, 0)) (.revoke 1 [1, 2])).events
        = (dispatch 4 5 ((Proofs.empty.insert [9] (3, 2)).insert [1, 2] (1, 0))
            (.revoke 1 [1, 2])).events ∧
      (dispatch 4 5 (Proofs.empty.insert [1, 2] (1, 0)) (.revoke 1 [1, 2])).proofs
          (Call.revoke 1 [1, 2]).claim
        = (dispatch 4 5 ((Proofs.empty.insert [9] (3, 2)).insert [1, 2] (1, 0))
            (.revoke 1 [1, 2])).proofs (Call.revoke 1 [1, 2]).claim :=
  claim9_single_entry_frame 4 5 (Proofs.empty.insert [1, 2] (1, 0))
    ((Proofs.empty.insert [9] (3, 2)).insert [1, 2] (1, 0)) (.revoke 1 [1, 2]) rfl

/-- A live fingerprint stays live across any dispatched call that is not
a successful revocation of that very fingerprint: creation on it fails
without touching it, revocation or transfer of a different fingerprint
leaves it alone, a failed revocation changes nothing, and a transfer of
it only overwrites the record. -/
theorem live_after_dispatch (L : Nat) (now : BlockNumber) (m : Proofs)
    (f : Content) (c : Call)
    (hlive : (m f).isSome) (hstep : stepRevokes L now m f c = false) :
    ((dispatch L now m c).proofs f).isSome := by
  cases c with
  | create s cl =>
    simp only [dispatch, create_claim]
    by_cases hl : cl.length ≤ L
    · cases hm : m cl with
      | some v => simpa [hl, hm]
      | none =>
        have hg : ¬ f = cl := by
          intro hfc
          rw [hfc, hm] at hlive
          simp at hlive
        simpa [hl, hm, Proofs.insert, hg]
    · simpa [hl]
  | revoke s cl =>
    simp only [dispatch, revoke_claim]
    by_cases hl : cl.length ≤ L
    · cases hm : m cl with
      | none => simpa [hl, hm]
      | some v =>
        obtain ⟨o, t⟩ := v
        by_cases ho : o = s
        · have hres : isOk (revoke_claim L now m s cl).result = true := by
            simp [revoke_claim, hl, hm, ho, isOk]
          simp only [stepRevokes, hres, Bool.and_true,
            decide_eq_false_iff_not] at hstep
          have hg : ¬ f = cl := fun hfc => hstep hfc.symm
          simpa [hl, hm, ho, Proofs.remove, hg]
        · simpa [hl, hm, ho]
    · simpa [hl]
  | transfer s cl d =>
    simp only [dispatch, transfer_claim]
    by_cases hl : cl.length ≤ L
    · cases hm : m cl with
      | none => simpa [hl, hm]
      | some v =>
        obtain ⟨o, t⟩ := v
        by_cases ho : o = s
        · by_cases hg : f = cl
          · simp [hl, hm, ho, Proofs.insert, hg]
          · simpa [hl, hm, ho, Proofs.insert, hg]
        · simpa [hl, hm, ho]
    · simpa [hl]

/-- A live fingerprint is still live after running any sequence of calls
none of which successfully revokes it. -/
theorem live_after_run (L : Nat) (f : Content) :
    ∀ (cs : List (BlockNumber × Call)) (m : Proofs),
      (m f).isSome → revokedDuring L f cs m = false →
      ((run L cs m) f).isSome := by
  intro cs
  induction cs with
  | nil =>
    intro m h _
    simpa [run]
  | cons p rest ih =>
    intro m h hnr
    obtain ⟨now, c⟩ := p
    rw [revokedDuring, Bool.or_eq_false_iff] at hnr
    rw [run]
    exact ih _ (live_after_dispatch L now m f c h hnr.1) hnr.2

/-- Claim C2: once `create_claim` has succeeded for a fingerprint, any
later `create_claim` for the same fingerprint, by any caller and after
any sequence of calls that never successfully revokes it, fails with
`ProofAlreadyExist`. -/
theorem claim2_unique_until_revoked (L : Nat) (n0 : BlockNumber)
    (m : Proofs) (A : AccountId) (f : Content)
    (hok : (create_claim L n0 m A f).result = .ok ())
    (cs : List (BlockNumber × Call))
    (hnorev : revokedDuring L f cs (create_claim L n0 m A f).proofs = false)
    (B : AccountId) (now' : BlockNumber) :
    (create_claim L now' (run L cs (create_claim L n0 m A f).proofs) B f).result
      = .error .ProofAlreadyExist := by
  have hl : f.length ≤ L := by
    by_contra hl
    simp [create_claim, hl] at hok
  have habs : m f = none := by
    cases hm : m f with
    | none => rfl
    | some v => simp [create_claim, hl, hm] at hok
  have hpost : ((create_claim L n0 m A f).proofs f).isSome := by
    simp [create_claim, hl, habs, Proofs.insert]
  have hlive := live_after_run L f cs _ hpost hnorev
  obtain ⟨v, hv⟩ := Option.isSome_iff_exists.mp hlive
  generalize hM : (create_claim L n0 m A f).proofs = M at hv ⊢
  simp [create_claim, hl, hv]

/-- Witness for C2 at a concrete input: after Alice creates `[1, 2]` and
two unrelated calls run, Bob's creation of `[1, 2]` fails with
`ProofAlreadyExist`. -/
theorem claim2_unique_until_revoked_witness :
    (create_claim 4 5
        (run 4 [(2, .create 2 [3]), (3, .transfer 1 [1, 2] 2)]
          (create_claim 4 1 Proofs.empty 1 [1, 2]).proofs)
        3 [1, 2]).result = .error .ProofAlreadyExist :=
  claim2_unique_until_revoked 4 1 Proofs.empty 1 [1, 2] rfl
    [(2, .create 2 [3]), (3, .transfer 1 [1, 2] 2)] rfl 3 5

end Poe
